import Mathlib

/-!
Verification of the policy-dashboard front end (`src/web/app.js`).

The file embeds the in-memory data-join and filter/render pipeline of the
dashboard: the geometry sanitizer of `initMap`, the KPI projection of
`renderKPIs`, the instrument-rank series of `initCharts`, the
selection/filter engine (`filterTableByProvince`, `filterTableByInstrument`
and the chart reset path), the table renderer `renderTable` and the modal
renderer `openModal`.  JavaScript strings are modelled as Lean strings
(lists of characters); a JavaScript object is modelled as an association
list in its iteration order; `undefined`-able fields become `Option`;
JavaScript truthiness of an optional string (or numeric year) field is made
explicit by `jsTruthy` (resp. the `== 0` test in `yearCell`).
-/

/-- Truthiness of an optional string field: `undefined` and `""` are falsy. -/
def jsTruthy : Option String → Bool
  | none => false
  | some s => s != ""

/-- Membership of `sub` as a contiguous substring, as `String.prototype.includes`. -/
def hasSubstring (sub : List Char) : List Char → Bool
  | [] => sub.isEmpty
  | c :: cs => sub.isPrefixOf (c :: cs) || hasSubstring sub cs

/-- The JavaScript test `s.includes(sub)`. -/
def strIncludes (s sub : String) : Bool := hasSubstring sub.data s.data

/-- Remove the first occurrence of `pat`, leaving the rest untouched. -/
def removeFirstAux (pat : List Char) : List Char → List Char
  | [] => []
  | c :: cs =>
    if pat.isPrefixOf (c :: cs) then (c :: cs).drop pat.length
    else c :: removeFirstAux pat cs

/-- The JavaScript call `s.replace(pat, '')` with a plain-string pattern:
it removes only the first occurrence of `pat`, wherever it stands. -/
def removeFirst (s pat : String) : String := ⟨removeFirstAux pat.data s.data⟩

/-- The JavaScript call `s.replace(/_/g, ' ')`: every underscore becomes a space. -/
def underscoresToSpaces (s : String) : String :=
  ⟨s.data.map (fun c => if c == '_' then ' ' else c)⟩

/-- The JavaScript call `s.split('_').pop()`: the segment after the last underscore. -/
def lastSegmentAux (cur : List Char) : List Char → List Char
  | [] => cur.reverse
  | c :: cs => if c == '_' then lastSegmentAux [] cs else lastSegmentAux (c :: cur) cs

/-- The last underscore-delimited segment of an instrument code. -/
def lastSegment (s : String) : String := ⟨lastSegmentAux [] s.data⟩

/-- One `{value, evidence}` pair of a `targets`/`subsidies`/`taxes`/`rd` mapping. -/
structure FinEntry where
  value : Option String
  evidence : Option String
deriving DecidableEq, Repr

/-- One record of `data.policies`, as `app.js` reads it. -/
structure Policy where
  id : String
  title : String
  province : String
  year : Option Int
  instruments : List String
  targets : List (String × Option FinEntry)
  subsidies : List (String × Option FinEntry)
  taxes : List (String × Option FinEntry)
  rd : List (String × Option FinEntry)
  other : List String
deriving DecidableEq, Repr

/-- The mutable display state the filter functions read and write:
`globalPolicies` (set once by `initCharts`), the table heading text and the
sequence of records currently rendered into the table body. -/
structure EngineState where
  globalPolicies : List Policy
  tableTitle : String
  view : List Policy
deriving DecidableEq, Repr

/-- `filterTableByProvince(provinceName)`: recompute the view from
`globalPolicies` by `p.province === provinceName`. -/
def filterTableByProvince (s : EngineState) (provinceName : String) : EngineState :=
  { s with
    tableTitle := "Policies in: " ++ provinceName
    view := s.globalPolicies.filter (fun p => p.province == provinceName) }

/-- `filterTableByInstrument(instrumentKey)`: recompute the view from
`globalPolicies` by `p.instruments.includes(instrumentKey)`. -/
def filterTableByInstrument (s : EngineState) (instrumentKey : String) : EngineState :=
  { s with
    tableTitle := "Policies using: " ++ underscoresToSpaces instrumentKey
    view := s.globalPolicies.filter (fun p => p.instruments.contains instrumentKey) }

/-- The reset path `renderTable(globalPolicies.slice(0, 50))`: the default
unfiltered view is the first 50 records in collection order. -/
def clearFilter (s : EngineState) : EngineState :=
  { s with view := s.globalPolicies.take 50 }

/-- One feature of the boundary GeoJSON: `properties.name` and
`properties.adcode`, either possibly absent. -/
structure GeoFeature where
  name : Option String
  adcode : Option Int
deriving DecidableEq, Repr

/-- The filter predicate of `initMap`: drop a feature whose name contains
"台湾" or "Taiwan", whose adcode is 710000, or whose name is empty
(`f.properties.name || ""` makes an absent name empty). -/
def keepFeature (f : GeoFeature) : Bool :=
  let name := f.name.getD ""
  if strIncludes name "台湾" || strIncludes name "Taiwan" || f.adcode == some 710000 then
    false
  else if name == "" then false
  else true

/-- `geoJson.features = geoJson.features.filter(...)` of `initMap`. -/
def sanitizeGeoFeatures (features : List GeoFeature) : List GeoFeature :=
  features.filter keepFeature

/-- One value of the `provinces` mapping of the dataset. -/
structure ProvinceStat where
  count : Nat
  subsidy_intensity : Nat
deriving DecidableEq, Repr

/-- The `summary` object of the dataset. -/
structure Summary where
  total_policies : Nat
  top_instrument : String
deriving DecidableEq, Repr

/-- The dataset `data/data.json` as `app.js` reads it; each mapping is kept
as an association list in its iteration order. -/
structure Dataset where
  summary : Summary
  provinces : List (String × ProvinceStat)
  timeline : List (Int × Nat)
  global_instruments : List (String × Nat)
  policies : List Policy
deriving DecidableEq, Repr

/-- The three KPI slots as `renderKPIs` fills them. -/
structure KPIView where
  kpiTotal : Nat
  kpiTopInst : String
  kpiProvinces : Nat
deriving DecidableEq, Repr

/-- `renderKPIs(data)`: the summary's precomputed total, the summary's top
instrument with underscores rendered as spaces, and
`Object.keys(data.provinces).length`. -/
def renderKPIs (data : Dataset) : KPIView :=
  { kpiTotal := data.summary.total_policies
    kpiTopInst := underscoresToSpaces data.summary.top_instrument
    kpiProvinces := data.provinces.length }

/-- Stable insertion of one entry into a count-descending list: the entry
goes before the first position whose count it reaches, hence after every
strictly larger count and before equal ones inserted earlier. -/
def insertByCountDesc (x : String × Nat) : List (String × Nat) → List (String × Nat)
  | [] => [x]
  | y :: ys => if y.2 ≤ x.2 then x :: y :: ys else y :: insertByCountDesc x ys

/-- The stable sort `entries.sort((a, b) => b[1] - a[1])` of `initCharts`:
count descending, ties kept in the mapping's iteration order. -/
def sortByCountDesc : List (String × Nat) → List (String × Nat)
  | [] => []
  | x :: xs => insertByCountDesc x (sortByCountDesc xs)

/-- `sortedInst` of `initCharts`: the sorted entries, truncated to the top 8. -/
def sortedInst (gi : List (String × Nat)) : List (String × Nat) :=
  (sortByCountDesc gi).take 8

/-- The display-label transformation of `initCharts`:
`d[0].replace(/_/g, ' ').replace('fiscal ', '').replace('tax ', '')` —
the first occurrence of `"fiscal "` and then of `"tax "` is removed,
wherever it stands in the spaced-out code. -/
def displayLabel (code : String) : String :=
  removeFirst (removeFirst (underscoresToSpaces code) "fiscal ") "tax "

/-- What the specification's words prescribe instead: strip `"fiscal "` or
`"tax "` only as a leading prefix of the spaced-out code. -/
def displayLabelSpec (code : String) : String :=
  let s := underscoresToSpaces code
  if ("fiscal ".data).isPrefixOf s.data then ⟨s.data.drop 7⟩
  else if ("tax ".data).isPrefixOf s.data then ⟨s.data.drop 4⟩
  else s

/-- The chart's `labels` array: display labels of the top entries. -/
def instLabels (gi : List (String × Nat)) : List String :=
  (sortedInst gi).map (fun d => displayLabel d.1)

/-- The chart's `rawKeys` array: the untransformed instrument codes, kept
side by side with the labels for the click handler. -/
def rawKeys (gi : List (String × Nat)) : List String :=
  (sortedInst gi).map (fun d => d.1)

/-- The chart's `onClick` handler: a click on bar `index` filters the table
by `rawKeys[index]`; a click outside every bar resets to the default view. -/
def instChartOnClick (s : EngineState) (gi : List (String × Nat)) :
    Option Nat → EngineState
  | none => clearFilter s
  | some index =>
    match (rawKeys gi).get? index with
    | some rawKey => filterTableByInstrument s rawKey
    | none => s

/-- First-match lookup in an association list, as property access on the
modelled JavaScript object. -/
def lookupAL (l : List (String × α)) (k : String) : Option α :=
  (l.find? (fun p => p.1 == k)).map Prod.snd

/-- The object spread `{...a, ...b}`: the keys of `a` in order, each with
`b`'s value when `b` also has the key, then the keys of `b` not in `a`. -/
def spreadMerge (a b : List (String × α)) : List (String × α) :=
  a.map (fun p => (p.1, (lookupAL b p.1).getD p.2)) ++
    b.filter (fun p => (lookupAL a p.1).isNone)

/-- `const allFinance = { ...p.subsidies, ...p.taxes, ...p.rd }` of `openModal`. -/
def allFinance (p : Policy) : List (String × Option FinEntry) :=
  spreadMerge (spreadMerge p.subsidies p.taxes) p.rd

/-- One rendered entry of the financial-instruments block. -/
structure FinanceRow where
  label : String
  shownValue : String
  evidenceText : Option String
deriving DecidableEq, Repr

/-- One iteration of the `Object.entries(allFinance).forEach` loop of
`openModal`: an entry is rendered exactly when `v && (v.value || v.evidence)`;
the value slot shows `v.value || 'Yes'`. -/
def financeRow : String × Option FinEntry → Option FinanceRow
  | (_, none) => none
  | (k, some v) =>
    if jsTruthy v.value || jsTruthy v.evidence then
      some
        { label := underscoresToSpaces k
          shownValue := if jsTruthy v.value then v.value.getD "" else "Yes"
          evidenceText := if jsTruthy v.evidence then v.evidence else none }
    else none

/-- The financial-instruments block of the modal for one record. -/
def financeRows (p : Policy) : List FinanceRow :=
  (allFinance p).filterMap financeRow

/-- The modal's display state: the overlay visibility and the content slots
`openModal` writes. -/
structure ModalState where
  overlayHidden : Bool
  modalTitle : String
  finance : List FinanceRow
deriving DecidableEq, Repr

/-- `window.openModal(policyId)`: look the record up by id in
`globalPolicies`; on a miss (`if (!p) return`) nothing changes, otherwise
the slots are filled and the overlay unhidden. -/
def openModal (policies : List Policy) (policyId : String) (st : ModalState) : ModalState :=
  match policies.find? (fun x => x.id == policyId) with
  | none => st
  | some p =>
    { overlayHidden := false
      modalTitle := p.title
      finance := financeRows p }

/-- The title cell of `renderTable`:
`p.title.length > 35 ? p.title.substring(0, 35) + '...' : p.title`. -/
def truncTitle (title : String) : String :=
  if title.data.length > 35 then ⟨title.data.take 35⟩ ++ "..." else title

/-- The year cell `${p.year || '-'}`: a falsy year — absent or zero — shows
the placeholder, a truthy one shows the number itself. -/
def yearCell : Option Int → String
  | none => "-"
  | some y => if y == 0 then "-" else toString y

/-- One row descriptor of the table body. -/
structure Row where
  displayTitle : String
  hoverTitle : String
  province : String
  yearText : String
  tags : List String
deriving DecidableEq, Repr

/-- One `<tr>` of `renderTable`: truncated title with the full title on the
hover attribute, province, year cell, and up to two instrument tags. -/
def renderRow (p : Policy) : Row :=
  { displayTitle := truncTitle p.title
    hoverTitle := p.title
    province := p.province
    yearText := yearCell p.year
    tags := (p.instruments.take 2).map lastSegment }

/-- The table body `renderTable` builds for a non-empty record sequence. -/
def renderTable (policies : List Policy) : List Row :=
  policies.map renderRow

/-! ## Helper lemmas -/

theorem mem_insertByCountDesc {z x : String × Nat} {l : List (String × Nat)} :
    z ∈ insertByCountDesc x l ↔ z = x ∨ z ∈ l := by
  induction l with
  | nil => simp [insertByCountDesc]
  | cons y ys ih =>
    by_cases h : y.2 ≤ x.2
    · simp [insertByCountDesc, h]
    · simp [insertByCountDesc, h, ih]
      tauto

theorem insertByCountDesc_perm (x : String × Nat) (l : List (String × Nat)) :
    List.Perm (insertByCountDesc x l) (x :: l) := by
  induction l with
  | nil => rfl
  | cons y ys ih =>
    by_cases h : y.2 ≤ x.2
    · simp [insertByCountDesc, h]
    · rw [insertByCountDesc, if_neg h]
      exact (ih.cons y).trans (List.Perm.swap x y ys)

theorem sortByCountDesc_perm (l : List (String × Nat)) :
    List.Perm (sortByCountDesc l) l := by
  induction l with
  | nil => rfl
  | cons x xs ih =>
    exact (insertByCountDesc_perm x (sortByCountDesc xs)).trans (ih.cons x)

theorem pairwise_insertByCountDesc {x : String × Nat} {l : List (String × Nat)}
    (hl : l.Pairwise (fun a b => b.2 ≤ a.2)) :
    (insertByCountDesc x l).Pairwise (fun a b => b.2 ≤ a.2) := by
  induction l with
  | nil => simp [insertByCountDesc]
  | cons y ys ih =>
    rcases List.pairwise_cons.1 hl with ⟨hy, hys⟩
    by_cases h : y.2 ≤ x.2
    · rw [insertByCountDesc, if_pos h]
      refine List.pairwise_cons.2 ⟨?_, hl⟩
      intro z hz
      rcases List.mem_cons.1 hz with rfl | hz
      · exact h
      · exact le_trans (hy z hz) h
    · rw [insertByCountDesc, if_neg h]
      refine List.pairwise_cons.2 ⟨?_, ih hys⟩
      intro z hz
      rcases mem_insertByCountDesc.1 hz with rfl | hz
      · exact le_of_not_le h
      · exact hy z hz

theorem sortByCountDesc_pairwise (l : List (String × Nat)) :
    (sortByCountDesc l).Pairwise (fun a b => b.2 ≤ a.2) := by
  induction l with
  | nil => simp [sortByCountDesc]
  | cons x xs ih => exact pairwise_insertByCountDesc ih

theorem filter_insertByCountDesc (x : String × Nat) (l : List (String × Nat)) (n : Nat) :
    (insertByCountDesc x l).filter (fun y => y.2 == n) =
      (if x.2 == n then [x] else []) ++ l.filter (fun y => y.2 == n) := by
  induction l with
  | nil => by_cases h : x.2 == n <;> simp [insertByCountDesc, h]
  | cons y ys ih =>
    by_cases h : y.2 ≤ x.2
    · rw [insertByCountDesc, if_pos h]
      by_cases hx : x.2 == n <;> simp [List.filter_cons, hx]
    · rw [insertByCountDesc, if_neg h]
      by_cases hy : y.2 == n
      · by_cases hx : x.2 == n
        · exfalso
          have hxn : x.2 = n := by simpa using hx
          have hyn : y.2 = n := by simpa using hy
          omega
        · simp [List.filter_cons, hy, hx, ih]
      · by_cases hx : x.2 == n <;> simp [List.filter_cons, hy, hx, ih]

theorem sortByCountDesc_filter_stable (l : List (String × Nat)) (n : Nat) :
    (sortByCountDesc l).filter (fun y => y.2 == n) = l.filter (fun y => y.2 == n) := by
  induction l with
  | nil => rfl
  | cons x xs ih =>
    rw [sortByCountDesc, filter_insertByCountDesc, ih, List.filter_cons]
    by_cases hx : x.2 == n <;> simp [hx]

theorem lookupAL_nil {α : Type} (k : String) : lookupAL ([] : List (String × α)) k = none :=
  rfl

theorem lookupAL_cons_of_pos {α : Type} {p : String × α} (ps : List (String × α))
    {k : String} (h : (p.1 == k) = true) : lookupAL (p :: ps) k = some p.2 := by
  rw [lookupAL, @List.find?_cons_of_pos _ (fun q => q.1 == k) p ps h, Option.map_some']

theorem lookupAL_cons_of_neg {α : Type} {p : String × α} (ps : List (String × α))
    {k : String} (h : ¬(p.1 == k) = true) : lookupAL (p :: ps) k = lookupAL ps k := by
  rw [lookupAL, @List.find?_cons_of_neg _ (fun q => q.1 == k) p ps h, lookupAL]

theorem lookupAL_append {α : Type} (xs ys : List (String × α)) (k : String) :
    lookupAL (xs ++ ys) k = (lookupAL xs k).or (lookupAL ys k) := by
  rw [lookupAL, lookupAL, lookupAL, List.find?_append]
  cases xs.find? (fun p => p.1 == k) <;> simp

theorem lookupAL_override {α : Type} (a b : List (String × α)) (k : String) :
    lookupAL (a.map (fun p => (p.1, (lookupAL b p.1).getD p.2))) k =
      (lookupAL a k).map (fun v => (lookupAL b k).getD v) := by
  induction a with
  | nil => simp [lookupAL]
  | cons p ps ih =>
    by_cases h : p.1 == k
    · have hk : p.1 = k := by simpa using h
      rw [List.map_cons, lookupAL_cons_of_pos _ (by simpa using h),
        lookupAL_cons_of_pos _ h, Option.map_some', hk]
    · rw [List.map_cons, lookupAL_cons_of_neg _ (by simpa using h),
        lookupAL_cons_of_neg _ h, ih]

theorem lookupAL_filter_isNone {α : Type} (a b : List (String × α)) (k : String) :
    lookupAL (b.filter (fun p => (lookupAL a p.1).isNone)) k =
      if (lookupAL a k).isNone then lookupAL b k else none := by
  induction b with
  | nil => simp [lookupAL]
  | cons p ps ih =>
    by_cases hk : p.1 == k
    · have hpk : p.1 = k := by simpa using hk
      by_cases ha : (lookupAL a k).isNone
      · rw [List.filter_cons, if_pos (by rw [hpk]; simpa using ha),
          lookupAL_cons_of_pos _ hk, lookupAL_cons_of_pos _ hk, if_pos ha]
      · rw [List.filter_cons, if_neg (by rw [hpk]; simpa using ha), ih, if_neg ha,
          if_neg ha]
    · by_cases ha : (lookupAL a p.1).isNone
      · rw [List.filter_cons, if_pos (by simpa using ha), lookupAL_cons_of_neg _ hk,
          lookupAL_cons_of_neg _ hk, ih]
      · rw [List.filter_cons, if_neg (by simpa using ha), ih,
          lookupAL_cons_of_neg _ hk]

theorem lookupAL_spreadMerge {α : Type} (a b : List (String × α)) (k : String) :
    lookupAL (spreadMerge a b) k = (lookupAL b k).or (lookupAL a k) := by
  rw [spreadMerge, lookupAL_append, lookupAL_override, lookupAL_filter_isNone]
  cases ha : lookupAL a k with
  | none => simp
  | some v => cases hb : lookupAL b k <;> simp

/-! ## The claims -/

/-- C1: `filterTableByProvince(P)` makes the visible set exactly the records
of the collection whose province field equals `P` (exact string equality, in
collection order); calling it twice with the same `P` gives the same state
both times; a subsequent reset restores the default unfiltered view of the
first 50 records in collection order. -/
theorem C1_filterTableByProvince_correct (s : EngineState) (P : String) :
    (filterTableByProvince s P).view =
        s.globalPolicies.filter (fun p => p.province == P) ∧
    (∀ r, r ∈ (filterTableByProvince s P).view ↔
        r ∈ s.globalPolicies ∧ r.province = P) ∧
    filterTableByProvince (filterTableByProvince s P) P = filterTableByProvince s P ∧
    (clearFilter (filterTableByProvince s P)).view = s.globalPolicies.take 50 := by
  refine ⟨rfl, ?_, rfl, rfl⟩
  intro r
  simp [filterTableByProvince, List.mem_filter]

/-- C2: `filterTableByInstrument(C)` makes the visible set exactly the
records whose `instruments` sequence contains `C` as a member; the view is
empty precisely when no record's instruments contain `C`, and in that case
the result is the empty sequence rather than an error. -/
theorem C2_filterTableByInstrument_correct (s : EngineState) (C : String) :
    (∀ r, r ∈ (filterTableByInstrument s C).view ↔
        r ∈ s.globalPolicies ∧ C ∈ r.instruments) ∧
    ((filterTableByInstrument s C).view = [] ↔
        ∀ r ∈ s.globalPolicies, C ∉ r.instruments) := by
  constructor
  · intro r
    simp [filterTableByInstrument, List.mem_filter]
  · simp [filterTableByInstrument, List.filter_eq_nil_iff]

/-- C5: the geometry sanitizer outputs no feature whose adcode is 710000, no
feature whose (effective) name contains "台湾" or "Taiwan", and no feature
with an empty or absent name; surviving features keep their relative input
order. -/
theorem C5_sanitizer_correct (fs : List GeoFeature) :
    (∀ f ∈ sanitizeGeoFeatures fs,
        f.adcode ≠ some 710000 ∧
        strIncludes (f.name.getD "") "台湾" = false ∧
        strIncludes (f.name.getD "") "Taiwan" = false ∧
        f.name.getD "" ≠ "") ∧
    (sanitizeGeoFeatures fs).Sublist fs := by
  refine ⟨?_, List.filter_sublist fs⟩
  intro f hf
  have hkeep : keepFeature f = true := (List.mem_filter.1 hf).2
  rw [keepFeature] at hkeep
  by_cases h1 : strIncludes (f.name.getD "") "台湾" ||
      strIncludes (f.name.getD "") "Taiwan" || f.adcode == some 710000
  · simp only [h1, if_true] at hkeep
    exact absurd hkeep (by simp)
  · simp only [h1, if_false] at hkeep
    by_cases h2 : f.name.getD "" == ""
    · simp only [h2, if_true] at hkeep
      exact absurd hkeep (by simp)
    · simp only [Bool.or_eq_true, not_or] at h1
      refine ⟨?_, ?_, ?_, by simpa using h2⟩
      · intro hc
        exact h1.2 (by simp [hc])
      · simpa using h1.1.1
      · simpa using h1.1.2

/-- C9: the geometry sanitizer is idempotent: filtering its own output
changes nothing. -/
theorem C9_sanitizer_idempotent (fs : List GeoFeature) :
    sanitizeGeoFeatures (sanitizeGeoFeatures fs) = sanitizeGeoFeatures fs := by
  exact List.filter_eq_self.2 (fun f hf => (List.mem_filter.1 hf).2)

/-- A minimal record for concrete instances: only the fields a given check
reads matter. -/
def samplePolicy (i prov : String) : Policy :=
  { id := i
    title := "t"
    province := prov
    year := none
    instruments := []
    targets := []
    subsidies := []
    taxes := []
    rd := []
    other := [] }

/-- C3 counterexample: on the mapping `{"a_fiscal_b": 1}` the chart's display
label is "a b": the first occurrence of "fiscal " is removed even though it
is not a leading prefix, so the label is not the claimed
underscores-to-spaces string with only a leading prefix stripped. -/
theorem C3_displayLabel_counterexample :
    instLabels [("a_fiscal_b", 1)] = ["a b"] ∧
    displayLabelSpec "a_fiscal_b" = "a fiscal b" ∧
    ("a b" : String) ≠ "a fiscal b" := by
  refine ⟨by decide, by decide, by decide⟩

/-- C3 (amended): the instrument-rank series is the `global_instruments`
entries stably sorted by count descending (a permutation, sorted, ties kept
in iteration order) and truncated to the top 8; labels and untransformed
codes are kept side by side, the label being the spaced-out code with the
first occurrence of "fiscal " and then of "tax " removed (wherever it
stands, not only as a leading prefix); the chart-click filter uses the
untransformed code, never the display label. -/
theorem C3_instrument_rank_amended (gi : List (String × Nat)) (s : EngineState) :
    List.Perm (sortByCountDesc gi) gi ∧
    (sortByCountDesc gi).Pairwise (fun a b => b.2 ≤ a.2) ∧
    (∀ n, (sortByCountDesc gi).filter (fun y => y.2 == n) =
        gi.filter (fun y => y.2 == n)) ∧
    sortedInst gi = (sortByCountDesc gi).take 8 ∧
    (sortedInst gi).length ≤ 8 ∧
    instLabels gi = (rawKeys gi).map displayLabel ∧
    (∀ code, displayLabel code =
        removeFirst (removeFirst (underscoresToSpaces code) "fiscal ") "tax ") ∧
    (∀ i k, (rawKeys gi).get? i = some k →
        instChartOnClick s gi (some i) = filterTableByInstrument s k ∧
        ∀ r, r ∈ (instChartOnClick s gi (some i)).view ↔
            r ∈ s.globalPolicies ∧ k ∈ r.instruments) := by
  refine ⟨sortByCountDesc_perm gi, sortByCountDesc_pairwise gi,
    sortByCountDesc_filter_stable gi, rfl, ?_, ?_, fun _ => rfl, ?_⟩
  · rw [sortedInst]
    exact le_trans (List.length_take_le 8 _) (le_refl _)
  · rw [instLabels, rawKeys, List.map_map]
    rfl
  · intro i k hk
    have hclick : instChartOnClick s gi (some i) = filterTableByInstrument s k := by
      rw [instChartOnClick, hk]
    refine ⟨hclick, ?_⟩
    intro r
    rw [hclick]
    simp [filterTableByInstrument, List.mem_filter]

/-- A dataset whose summary advertises a total different from the size of
the policy collection. -/
def kpiMismatchData : Dataset :=
  { summary := { total_policies := 7, top_instrument := "x" }
    provinces := []
    timeline := []
    global_instruments := []
    policies := [samplePolicy "a" "P1", samplePolicy "b" "P2"] }

/-- C4 counterexample: the total KPI slot shows the summary's precomputed
`total_policies` field, not the size of the policy collection: on a dataset
whose summary says 7 over a 2-record collection, the slot shows 7. -/
theorem C4_total_counterexample :
    (renderKPIs kpiMismatchData).kpiTotal = 7 ∧
    kpiMismatchData.policies.length = 2 ∧
    (renderKPIs kpiMismatchData).kpiTotal ≠ kpiMismatchData.policies.length := by
  refine ⟨rfl, rfl, by decide⟩

/-- C4 (amended): the KPI projection displays `total_count` equal to the
dataset summary's precomputed `total_policies` field (equal to the
collection size only when that summary is consistent), the top-instrument
label equal to the summary's precomputed top-instrument field with
underscores rendered as spaces, and the province count equal to the number
of distinct province keys of the province-stats mapping. -/
theorem C4_renderKPIs_amended (data : Dataset)
    (h : (data.provinces.map Prod.fst).Nodup) :
    (renderKPIs data).kpiTotal = data.summary.total_policies ∧
    (renderKPIs data).kpiTopInst = underscoresToSpaces data.summary.top_instrument ∧
    (renderKPIs data).kpiProvinces = (data.provinces.map Prod.fst).dedup.length := by
  refine ⟨rfl, rfl, ?_⟩
  rw [renderKPIs]
  rw [List.Nodup.dedup h, List.length_map]

/-- A small concrete dataset with one province key. -/
def kpiSampleData : Dataset :=
  { summary := { total_policies := 1, top_instrument := "fiscal_x" }
    provinces := [("上海市", { count := 1, subsidy_intensity := 2 })]
    timeline := []
    global_instruments := []
    policies := [samplePolicy "a" "上海市"] }

/-- C4 witness: the amended KPI statement at a concrete dataset. -/
theorem C4_renderKPIs_amended_witness :
    (renderKPIs kpiSampleData).kpiTotal = kpiSampleData.summary.total_policies ∧
    (renderKPIs kpiSampleData).kpiTopInst =
      underscoresToSpaces kpiSampleData.summary.top_instrument ∧
    (renderKPIs kpiSampleData).kpiProvinces =
      (kpiSampleData.provinces.map Prod.fst).dedup.length :=
  C4_renderKPIs_amended kpiSampleData (by decide)

/-- C6: the modal's financial-instruments block is built from the key union
of `subsidies`, `taxes` and `rd` with last-writer-wins on key collision
(`rd` over `taxes` over `subsidies`); a merged entry is rendered exactly
when it has a truthy value or truthy evidence text, and an entry with
evidence but no value shows "Yes" in the value slot. -/
theorem C6_modal_finance_correct (p : Policy) :
    (∀ k, lookupAL (allFinance p) k =
        (lookupAL p.rd k).or ((lookupAL p.taxes k).or (lookupAL p.subsidies k))) ∧
    (∀ k, (lookupAL (allFinance p) k).isSome ↔
        (lookupAL p.subsidies k).isSome ∨ (lookupAL p.taxes k).isSome ∨
          (lookupAL p.rd k).isSome) ∧
    financeRows p = (allFinance p).filterMap financeRow ∧
    (∀ k, financeRow (k, none) = none) ∧
    (∀ k e, (financeRow (k, some e)).isSome ↔
        (jsTruthy e.value || jsTruthy e.evidence) = true) ∧
    (∀ k e, jsTruthy e.value = false → jsTruthy e.evidence = true →
        financeRow (k, some e) =
          some { label := underscoresToSpaces k
                 shownValue := "Yes"
                 evidenceText := e.evidence }) := by
  have hmerge : ∀ k, lookupAL (allFinance p) k =
      (lookupAL p.rd k).or ((lookupAL p.taxes k).or (lookupAL p.subsidies k)) := by
    intro k
    rw [allFinance, lookupAL_spreadMerge, lookupAL_spreadMerge]
  refine ⟨hmerge, ?_, rfl, fun _ => rfl, ?_, ?_⟩
  · intro k
    rw [hmerge k]
    cases lookupAL p.rd k <;> cases lookupAL p.taxes k <;>
      cases lookupAL p.subsidies k <;> simp
  · intro k e
    by_cases h : (jsTruthy e.value || jsTruthy e.evidence) = true
    · simp [financeRow, h]
    · simp [financeRow, h]
  · intro k e hv he
    simp [financeRow, hv, he]

/-- A modal display state with the overlay hidden and empty content slots. -/
def sampleModalState : ModalState :=
  { overlayHidden := true
    modalTitle := ""
    finance := [] }

/-- C7: opening the modal for an id not present in the collection is a
silent no-op: the display state is unchanged and a hidden overlay stays
hidden. -/
theorem C7_openModal_missing_id (policies : List Policy) (policyId : String)
    (st : ModalState) (h : ∀ p ∈ policies, p.id ≠ policyId) :
    openModal policies policyId st = st ∧
    (st.overlayHidden = true →
      (openModal policies policyId st).overlayHidden = true) := by
  have hfind : policies.find? (fun x => x.id == policyId) = none := by
    rw [List.find?_eq_none]
    intro q hq
    simpa using h q hq
  have hop : openModal policies policyId st = st := by
    rw [openModal, hfind]
  exact ⟨hop, fun hh => by rw [hop]; exact hh⟩

/-- C7 witness: the no-op at a concrete collection, id and display state. -/
theorem C7_openModal_missing_id_witness :
    openModal [samplePolicy "x1" "上海市"] "nope" sampleModalState = sampleModalState ∧
    (sampleModalState.overlayHidden = true →
      (openModal [samplePolicy "x1" "上海市"] "nope" sampleModalState).overlayHidden =
        true) :=
  C7_openModal_missing_id [samplePolicy "x1" "上海市"] "nope" sampleModalState
    (by decide)

/-- C8: a title longer than 35 characters is displayed as its first 35
characters with an appended ellipsis, totalling exactly 38 characters; a
title of at most 35 characters is displayed unchanged; the displayed title
never exceeds 38 characters; and the full title is retained for the hover
affordance. -/
theorem C8_title_truncation (t : String) (p : Policy) :
    (t.data.length > 35 →
        truncTitle t = ⟨t.data.take 35⟩ ++ "..." ∧
        (truncTitle t).data.length = 38) ∧
    (t.data.length ≤ 35 → truncTitle t = t) ∧
    (truncTitle t).data.length ≤ 38 ∧
    (renderRow p).hoverTitle = p.title := by
  have hlen : t.data.length > 35 → (truncTitle t).data.length = 38 := by
    intro h
    rw [truncTitle, if_pos h]
    show (t.data.take 35 ++ "...".data).length = 38
    rw [List.length_append, List.length_take]
    have : min 35 t.data.length = 35 := by omega
    rw [this]
    rfl
  refine ⟨?_, ?_, ?_, rfl⟩
  · intro h
    exact ⟨by rw [truncTitle, if_pos h], hlen h⟩
  · intro h
    rw [truncTitle, if_neg (by omega)]
  · by_cases h : t.data.length > 35
    · rw [hlen h]
    · rw [truncTitle, if_neg h]
      omega

/-- C10: the year cell shows the placeholder for every falsy year value: an
absent year and a year equal to 0 both display "-", while every nonzero
(truthy) year is displayed as-is. -/
theorem C10_year_zero_placeholder (p : Policy) :
    (renderRow p).yearText = yearCell p.year ∧
    yearCell (some 0) = "-" ∧
    yearCell none = "-" ∧
    (∀ y : Int, y ≠ 0 → yearCell (some y) = toString y) := by
  refine ⟨rfl, rfl, rfl, ?_⟩
  intro y hy
  simp [yearCell, hy]
